import Mathlib

/-!
Shallow embedding of the dynamic-filtering Score-P substrate plugin
(src/dynamic-filtering.c) and verification of its specification claims.

Modelling conventions:
* machine integers (`uint32_t`, `uint64_t`) are `Nat` with explicit reduction
  modulo `2^32` / `2^64` at the operations where the C code can wrap;
* the C `float` statistics are modelled over `ℚ` (exact arithmetic standing in
  for IEEE single precision; a division whose divisor is zero yields NaN or an
  infinity in C, and every `<` comparison against NaN is false there, which the
  model renders as an explicit zero test returning `false`);
* the libunwind stack walks (`get_instrumentation_call_type`,
  `get_function_call_ip`) and the `mprotect` outcomes depend on the process
  environment, so they enter the model as oracle parameters carried by the
  events;
* pointers into executable memory are modelled as `Option Nat` (`none` is the
  C null pointer); executable memory itself, where needed, is `Nat → Nat`
  (address to byte value);
* the uthash tables (`HASH_FIND` / `HASH_ADD` / `HASH_ITER`) are association
  lists in insertion order, matching uthash iteration order;
* a null-pointer dereference is the `fault` outcome, `exit(EXIT_FAILURE)` is
  the `fatalExit` outcome.
-/

namespace DynamicFiltering

/-- MAX_THREAD_CNT from the source (default 512). -/
def MAX_THREAD_CNT : Nat := 512

/-- Modulus of `uint32_t`. -/
def U32 : Nat := 4294967296

/-- Modulus of `uint64_t`. -/
def U64 : Nat := 18446744073709551616

/-- Wrapping `uint64_t` addition. -/
def add64 (a b : Nat) : Nat := (a + b) % U64

/-- Wrapping `uint64_t` subtraction, `(a - b) mod 2^64`. -/
def sub64 (a b : Nat) : Nat := (a + U64 - b % U64) % U64

/-- The `region_info` struct: one global record per instrumented region. -/
structure RegionInfo where
  call_cnt : Nat
  duration : Nat
  last_enter : Nat
  enter_func : Option Nat
  exit_func : Option Nat
  region_name : String
  region_handle : Nat
  depth : Nat
  mean_duration : ℚ
  deletable : Bool
  inactive : Bool
  optimized : Bool
deriving DecidableEq

/-- A freshly `calloc`ed region record, as built by `on_define_region`. -/
def RegionInfo.new (handle : Nat) (name : String) : RegionInfo :=
  { call_cnt := 0, duration := 0, last_enter := 0, enter_func := none,
    exit_func := none, region_name := name, region_handle := handle,
    depth := 0, mean_duration := 0, deletable := false, inactive := false,
    optimized := false }

/-- The `local_region_info` struct: per-thread shadow record. -/
structure LocalRegionInfo where
  call_cnt : Nat
  duration : Nat
  last_enter : Nat
  region_handle : Nat
  enter_func : Option Nat
  exit_func : Option Nat
  optimized : Bool
deriving DecidableEq

/-- A freshly `calloc`ed shadow record, as built by `on_create_location`. -/
def LocalRegionInfo.new (handle : Nat) : LocalRegionInfo :=
  { call_cnt := 0, duration := 0, last_enter := 0, region_handle := handle,
    enter_func := none, exit_func := none, optimized := false }

/-- The mutable globals of dynamic-filtering.c that the events touch.
`hooks_known` models `enter_func != NULL && exit_func != NULL` for the global
hook-name pair (the source always assigns the two names together). -/
structure SubstrateState where
  regions : List RegionInfo
  num_threads : Nat
  local_info : Nat → List LocalRegionInfo
  thread_ctr : Nat
  filtering_absolute : Bool
  threshold : Nat
  mean_duration : ℚ
  hooks_known : Bool
  continue_despite : Bool
  printed_warning : Bool
  create_report : Bool
  create_filter : Bool

/-- State right after `init` with no environment variables set. -/
def initState : SubstrateState :=
  { regions := [], num_threads := 0, local_info := fun _ => [], thread_ctr := 0,
    filtering_absolute := true, threshold := 100000, mean_duration := 0,
    hooks_known := false, continue_despite := false, printed_warning := false,
    create_report := false, create_filter := false }

/-- Outcome of one host callback. -/
inductive StepResult where
  | ok (s : SubstrateState)
  | fatalExit
  | fault

/-- The calling thread's view: its thread-local `main_thread` flag and its
thread-local `local_info_array_index`. -/
structure ThreadCtx where
  isMain : Bool
  slot : Nat
deriving DecidableEq

/-- Outcome of a `get_function_call_ip` stack walk in the exit direction. -/
inductive ExitResolve where
  /-- The validated call-site address was returned. -/
  | found (addr : Nat)
  /-- The walk never reached the hook frame; the function returns 0 silently. -/
  | notFound
  /-- The byte pattern at the candidate did not validate (tail-call
  optimization); the function returns NULL after its one-shot warning. -/
  | badPattern
deriving DecidableEq

/-- HASH_FIND on the global region table. -/
def findRegion (s : SubstrateState) (handle : Nat) : Option RegionInfo :=
  s.regions.find? (fun r => r.region_handle == handle)

/-- In-place mutation of the record that HASH_FIND would return. -/
def updateRegion (handle : Nat) (f : RegionInfo → RegionInfo) :
    List RegionInfo → List RegionInfo
  | [] => []
  | r :: rs =>
    if r.region_handle == handle then f r :: rs
    else r :: updateRegion handle f rs

/-- In-place mutation of the shadow record that HASH_FIND would return. -/
def updateLocal (handle : Nat) (f : LocalRegionInfo → LocalRegionInfo) :
    List LocalRegionInfo → List LocalRegionInfo
  | [] => []
  | l :: ls =>
    if l.region_handle == handle then f l :: ls
    else l :: updateLocal handle f ls

/-- Write to one slot of `local_info_array`. -/
def updateSlot (arr : Nat → List LocalRegionInfo) (i : Nat)
    (f : List LocalRegionInfo → List LocalRegionInfo) :
    Nat → List LocalRegionInfo :=
  fun j => if j = i then f (arr j) else arr j

/-- The region condition of `update_mean_duration`'s loop body (the release
build: `!current->deletable && !current->inactive`). -/
def active_region (r : RegionInfo) : Bool := !r.deletable && !r.inactive

/-- `update_mean_duration`: iterates all regions, accumulating `mean_duration`
of the regions passing `active_region`; the counter starts at 1. -/
def update_mean_duration (regions : List RegionInfo) : ℚ :=
  let acc := regions.foldl
    (fun (acc : ℚ × Nat) current =>
      if active_region current then (acc.1 + current.mean_duration, acc.2 + 1)
      else acc)
    (0, 1)
  acc.1 / (acc.2 : ℚ)

/-- The absolute-method comparison `((float) duration / call_cnt) < threshold`.
With `call_cnt == 0` the C expression is NaN or +inf and the comparison is
false, rendered here by the explicit zero test.  For a nonzero count the
division is written in exact cross-multiplied form (`absolute_check_iff_mean`
below proves it equal to the rational-division form). -/
def absolute_check (duration call_cnt threshold : Nat) : Bool :=
  if call_cnt = 0 then false
  else decide (duration < threshold * call_cnt)

/-- The guarded mean computation of the relative branches:
`call_cnt == 0 ? 0 : (float) duration / call_cnt`. -/
def calc_mean (duration call_cnt : Nat) : ℚ :=
  if call_cnt = 0 then 0 else (duration : ℚ) / (call_cnt : ℚ)

/-- The filter decision shared by `on_exit_region` and `on_join`: under the
absolute method compare the region's mean with the threshold; under the
relative method recompute the region's `mean_duration`, call
`update_mean_duration`, and compare against `mean_duration - threshold`. -/
def apply_filter_check (s : SubstrateState) (handle : Nat) : SubstrateState :=
  match findRegion s handle with
  | none => s
  | some region =>
    if s.filtering_absolute then
      if absolute_check region.duration region.call_cnt s.threshold then
        let rs1 := updateRegion handle (fun r => { r with deletable := true }) s.regions
        { s with regions := rs1 }
      else s
    else
      let m := calc_mean region.duration region.call_cnt
      let regions1 :=
        updateRegion handle (fun r => { r with mean_duration := m }) s.regions
      let md := update_mean_duration regions1
      let regions2 :=
        if m < md - (s.threshold : ℚ) then
          updateRegion handle (fun r => { r with deletable := true }) regions1
        else regions1
      { s with regions := regions2, mean_duration := md }

/-- The per-region body of `delete_regions`: patch and mark inactive when the
region is deletable, not inactive, at depth zero, and both call-site addresses
are non-null. -/
def delete_region_step (current : RegionInfo) : RegionInfo :=
  if !current.inactive && current.deletable && current.depth == 0
      && !(current.enter_func.isNone || current.exit_func.isNone) then
    { current with inactive := true }
  else current

/-- `delete_regions`: iterate all regions applying `delete_region_step`.  (The
byte-level effect of the two `override_callq` calls on executable memory is
modelled separately by `override_callq` below.) -/
def delete_regions (regions : List RegionInfo) : List RegionInfo :=
  regions.map delete_region_step

/-- `get_function_call_ip` in the enter direction: with an unknown hook name it
returns 0 immediately, otherwise the stack-walk outcome (an address, or 0 when
the walk misses) is the oracle. -/
def resolve_enter (hooks_known : Bool) (oracle : Option Nat) : Option Nat :=
  if hooks_known then oracle else none

/-- `get_function_call_ip` in the exit direction: returns the resolved address
(if any) and whether the one-shot sibling-call warning fires now. -/
def resolve_exit (hooks_known : Bool) (oracle : ExitResolve) :
    Option Nat × Bool :=
  if hooks_known then
    match oracle with
    | .found addr => (some addr, false)
    | .notFound => (none, false)
    | .badPattern => (none, true)
  else (none, false)

/-- The main-thread branch of `on_enter_region` (lines 598-622 of the source).
The HASH_FIND result is dereferenced without a null check, hence `fault` for
an undefined region. -/
def on_enter_main (timestamp handle : Nat) (oracle : Option Nat)
    (s : SubstrateState) : StepResult :=
  match findRegion s handle with
  | none => .fault
  | some region =>
    if region.optimized then .ok s else
    let s :=
      if region.enter_func.isNone then
        let res := resolve_enter s.hooks_known oracle
        let rs1 := updateRegion handle
          (fun r => { r with enter_func := res,
                             optimized := r.optimized || res.isNone })
          s.regions
        { s with regions := rs1 }
      else s
    if region.inactive then .ok s else
    let rs2 := updateRegion handle
      (fun r => { r with last_enter := timestamp,
                         depth := (r.depth + 1) % U32 }) s.regions
    .ok { s with regions := rs2 }

/-- The worker-thread branch of `on_enter_region` (lines 623-645). -/
def on_enter_worker (slot timestamp handle : Nat) (oracle : Option Nat)
    (s : SubstrateState) : SubstrateState :=
  if slot < MAX_THREAD_CNT then
    match (s.local_info slot).find? (fun l => l.region_handle == handle) with
    | none => s
    | some info =>
      if info.optimized then s else
      let li1 := updateSlot s.local_info slot
        (updateLocal handle (fun l => { l with last_enter := timestamp }))
      let s := { s with local_info := li1 }
      if info.enter_func.isNone then
        let res := resolve_enter s.hooks_known oracle
        let li2 := updateSlot s.local_info slot
          (updateLocal handle
            (fun l => { l with enter_func := res,
                               optimized := l.optimized || res.isNone }))
        { s with local_info := li2 }
      else s
  else s

/-- `on_enter_region`.  `discover` is the outcome of
`get_instrumentation_call_type` (whether a known hook family is on the stack),
`oracle` the outcome of the enter-direction stack walk. -/
def on_enter_region (ctx : ThreadCtx) (timestamp handle : Nat)
    (compiler discover : Bool) (oracle : Option Nat) (s : SubstrateState) :
    StepResult :=
  if s.printed_warning && !s.continue_despite then .ok s else
  if !compiler then .ok s else
  let s := if !s.hooks_known then { s with hooks_known := discover } else s
  if ctx.isMain then on_enter_main timestamp handle oracle s
  else .ok (on_enter_worker ctx.slot timestamp handle oracle s)

/-- The main-thread branch of `on_exit_region` (lines 672-738): dereferences
the HASH_FIND result without a null check, decrements `depth` unconditionally
(a `uint32_t`, so it wraps), resolves the exit call-site if still null,
updates the statistics and the filter decision unless the region is already
deletable or inactive, and invokes `delete_regions` when the thread counter
reads zero. -/
def on_exit_main (timestamp handle : Nat) (oracle : ExitResolve)
    (s : SubstrateState) : StepResult :=
  match findRegion s handle with
  | none => .fault
  | some region =>
    if region.optimized then .ok s else
    let rs1 := updateRegion handle
      (fun r => { r with depth := (r.depth + U32 - 1) % U32 }) s.regions
    let s := { s with regions := rs1 }
    let s :=
      if region.exit_func.isNone then
        let res := resolve_exit s.hooks_known oracle
        let rs2 := updateRegion handle
          (fun r => { r with exit_func := res.1,
                             optimized := r.optimized || res.1.isNone })
          s.regions
        { s with printed_warning := s.printed_warning || res.2,
                 regions := rs2 }
      else s
    let s :=
      if !region.deletable && !region.inactive then
        let rs3 := updateRegion handle
          (fun r => { r with call_cnt := (r.call_cnt + 1) % U64,
                             duration := add64 r.duration (sub64 timestamp r.last_enter) })
          s.regions
        apply_filter_check { s with regions := rs3 } handle
      else s
    if s.thread_ctr = 0 then .ok { s with regions := delete_regions s.regions }
    else .ok s

/-- The worker-thread branch of `on_exit_region` (lines 739-761). -/
def on_exit_worker (slot timestamp handle : Nat) (oracle : ExitResolve)
    (s : SubstrateState) : SubstrateState :=
  if slot < MAX_THREAD_CNT then
    match (s.local_info slot).find? (fun l => l.region_handle == handle) with
    | none => s
    | some info =>
      if info.optimized then s else
      let li1 := updateSlot s.local_info slot
        (updateLocal handle
          (fun l => { l with call_cnt := (l.call_cnt + 1) % U64,
                             duration := add64 l.duration (sub64 timestamp l.last_enter) }))
      let s := { s with local_info := li1 }
      if info.exit_func.isNone then
        let res := resolve_exit s.hooks_known oracle
        let li2 := updateSlot s.local_info slot
          (updateLocal handle
            (fun l => { l with exit_func := res.1,
                               optimized := l.optimized || res.1.isNone }))
        { s with printed_warning := s.printed_warning || res.2,
                 local_info := li2 }
      else s
  else s

def on_exit_region (ctx : ThreadCtx) (timestamp handle : Nat) (compiler : Bool)
    (oracle : ExitResolve) (s : SubstrateState) : StepResult :=
  if s.printed_warning && !s.continue_despite then .ok s else
  if !compiler then .ok s else
  if ctx.isMain then on_exit_main timestamp handle oracle s
  else .ok (on_exit_worker ctx.slot timestamp handle oracle s)

/-- `on_team_begin`: increments the thread counter under its mutex. -/
def on_team_begin (s : SubstrateState) : SubstrateState :=
  if s.printed_warning && !s.continue_despite then s
  else { s with thread_ctr := (s.thread_ctr + 1) % U64 }

/-- `on_team_end`: decrements the thread counter (a `uint64_t`, wrapping). -/
def on_team_end (s : SubstrateState) : SubstrateState :=
  if s.printed_warning && !s.continue_despite then s
  else { s with thread_ctr := (s.thread_ctr + U64 - 1) % U64 }

/-- One inner iteration of `on_join`'s merge loop: merge the shadow for
`handle` in slot `i` into the global record, zero the shadow's counters, and
promote call-site addresses and the `optimized` flag. -/
def join_merge_slot (s : SubstrateState) (handle i : Nat) : SubstrateState :=
  match (s.local_info i).find? (fun l => l.region_handle == handle) with
  | none => s
  | some l =>
    let rs1 := updateRegion handle (fun r =>
      { r with
        call_cnt := add64 r.call_cnt l.call_cnt,
        duration := add64 r.duration l.duration,
        enter_func := if r.enter_func.isNone && l.enter_func.isSome then
            l.enter_func else r.enter_func,
        exit_func := if r.exit_func.isNone && l.exit_func.isSome then
            l.exit_func else r.exit_func,
        optimized := r.optimized || l.optimized }) s.regions
    let li1 := updateSlot s.local_info i
      (updateLocal handle (fun l => { l with call_cnt := 0, duration := 0 }))
    { s with regions := rs1, local_info := li1 }

/-- One outer iteration of `on_join`'s HASH_ITER: merge all shadows of this
region for every slot below `border`, then run the filter decision (the
decision is applied to every region, with no check of its `optimized`,
`deletable` or `inactive` flags). -/
def join_process_region (s : SubstrateState) (handle : Nat) : SubstrateState :=
  let border := min s.num_threads MAX_THREAD_CNT
  let s := (List.range border).foldl (fun s i => join_merge_slot s handle i) s
  apply_filter_check s handle

/-- `on_join`: recompute every filter decision after merging shadows; patch by
`delete_regions` when the thread counter reads zero. -/
def on_join (s : SubstrateState) : SubstrateState :=
  if s.printed_warning && !s.continue_despite then s
  else
    let handles := s.regions.map (fun r => r.region_handle)
    let s := handles.foldl join_process_region s
    if s.thread_ctr = 0 then { s with regions := delete_regions s.regions }
    else s

/-- `on_define_region`: creates one record per new compiler region; a handle
already present makes the process `exit(EXIT_FAILURE)`. -/
def on_define_region (isRegionType compiler : Bool) (handle : Nat)
    (name : String) (s : SubstrateState) : StepResult :=
  if s.printed_warning && !s.continue_despite then .ok s else
  if !isRegionType || !compiler then .ok s else
  match findRegion s handle with
  | none => .ok { s with regions := s.regions ++ [RegionInfo.new handle name] }
  | some _ => .fatalExit

/-- `on_create_location`: location id 0 marks the calling thread as main
(a thread-local flag, part of `ThreadCtx` here); other locations take the next
slot index, and when below the cap receive a shadow table covering all
currently known regions (HASH_ADD appends). -/
def on_create_location (locationId : Nat) (s : SubstrateState) : SubstrateState :=
  if s.printed_warning && !s.continue_despite then s else
  if locationId = 0 then s
  else
    let slot := s.num_threads
    let s := { s with num_threads := (s.num_threads + 1) % U32 }
    if MAX_THREAD_CNT ≤ slot then s
    else
      let li1 := updateSlot s.local_info slot
        (fun old => old ++ s.regions.map (fun r => LocalRegionInfo.new r.region_handle))
      { s with local_info := li1 }

/-- `on_delete_location`: frees the calling thread's shadow table (when its
slot index is below the cap) and decrements `num_threads` (wrapping). -/
def on_delete_location (ctx : ThreadCtx) (s : SubstrateState) : SubstrateState :=
  if s.printed_warning && !s.continue_despite then s else
  let s := if ctx.slot < MAX_THREAD_CNT then
      { s with local_info := updateSlot s.local_info ctx.slot (fun _ => []) }
    else s
  { s with num_threads := (s.num_threads + U32 - 1) % U32 }

/-- The SCOREP_SUBSTRATE_DYNAMIC_FILTERING_METHOD handling in `init`,
lines 902-911: when the variable is set, the inner `if` computes a value that
the following unconditional assignment overwrites with `false`. -/
def init_filtering_method (env : Option String) (filtering_absolute : Bool) :
    Bool :=
  match env with
  | none => filtering_absolute
  | some env_str =>
    let _fa := if env_str = "absolute" then filtering_absolute else true
    false

/-- One row of the report table printed by `on_write_data`. -/
structure ReportRow where
  name : String
  handle : Nat
  call_cnt : Nat
  duration : Nat
  mean_duration : ℚ
  status : String
deriving DecidableEq

/-- The status column of the report. -/
def region_status (r : RegionInfo) : String :=
  if r.optimized then "compiler-optimized"
  else if r.deletable then (if r.inactive then "deleted" else "deletable")
  else " "

/-- `on_write_data`: the report rows (when enabled) and the filter-file region
names (when enabled).  The function reads no gate flag. -/
def on_write_data (s : SubstrateState) : List ReportRow × List String :=
  ( if s.create_report then
      s.regions.map (fun r =>
        { name := r.region_name, handle := r.region_handle,
          call_cnt := r.call_cnt, duration := r.duration,
          mean_duration := r.mean_duration, status := region_status r })
    else [],
    if s.create_filter then
      (s.regions.filter (fun r => r.inactive || r.optimized)).map
        (fun r => r.region_name)
    else [] )

/-- `finalize`: frees and empties the global region table; not gated. -/
def finalize (s : SubstrateState) : SubstrateState :=
  { s with regions := [] }

/-- The five-byte NOP `0F 1F 44 00 00` written by `override_callq`. -/
def nop_bytes : List Nat := [0x0f, 0x1f, 0x44, 0x00, 0x00]

/-- Result of `override_callq` on executable memory: the new memory contents
and how many diagnostics were printed to stderr. -/
structure PatchOutcome where
  mem : Nat → Nat
  diagnostics : Nat

/-- `override_callq`: `addOk` and `removeOk` are the outcomes of the two
mprotect phases (adding and removing the write permission).  A failure prints
a diagnostic, but the `memmove` of the five NOP bytes is unconditional and the
function returns normally either way. -/
def override_callq (addOk removeOk : Bool) (mem : Nat → Nat) (ptr : Nat) :
    PatchOutcome :=
  let d1 : Nat := if addOk then 0 else 1
  let mem1 : Nat → Nat := fun a =>
    if ptr ≤ a ∧ a < ptr + 5 then nop_bytes.getD (a - ptr) 0 else mem a
  let d2 : Nat := if removeOk then 0 else 1
  { mem := mem1, diagnostics := d1 + d2 }

/-- One host event, carrying the calling thread's context and the
environment-dependent oracle outcomes. -/
inductive Event where
  | enterRegion (ctx : ThreadCtx) (timestamp handle : Nat)
      (compiler discover : Bool) (oracle : Option Nat)
  | exitRegion (ctx : ThreadCtx) (timestamp handle : Nat) (compiler : Bool)
      (oracle : ExitResolve)
  | teamBegin
  | teamEnd
  | join
  | defineRegion (isRegionType compiler : Bool) (handle : Nat) (name : String)
  | createLocation (locationId : Nat)
  | deleteLocation (ctx : ThreadCtx)

/-- Dispatch one event. -/
def step (s : SubstrateState) : Event → StepResult
  | .enterRegion ctx ts h c d o => on_enter_region ctx ts h c d o s
  | .exitRegion ctx ts h c o => on_exit_region ctx ts h c o s
  | .teamBegin => .ok (on_team_begin s)
  | .teamEnd => .ok (on_team_end s)
  | .join => .ok (on_join s)
  | .defineRegion t c h n => on_define_region t c h n s
  | .createLocation l => .ok (on_create_location l s)
  | .deleteLocation ctx => .ok (on_delete_location ctx s)

/-- Run a sequence of host events; a fault or fatal exit ends the run. -/
def run (s : SubstrateState) : List Event → StepResult
  | [] => .ok s
  | e :: es =>
    match step s e with
    | .ok s1 => run s1 es
    | .fatalExit => .fatalExit
    | .fault => .fault

/-- Project the three lifecycle flags (`optimized`, `deletable`, `inactive`)
of the region with the given handle out of a run result. -/
def regionFlags (r : StepResult) (handle : Nat) : Option (Bool × Bool × Bool) :=
  match r with
  | .ok s => (findRegion s handle).map (fun r => (r.optimized, r.deletable, r.inactive))
  | _ => none

/-- Project an arbitrary region field out of a run result. -/
def regionProj {α : Type} (f : RegionInfo → α) (r : StepResult) (handle : Nat) :
    Option α :=
  match r with
  | .ok s => (findRegion s handle).map f
  | _ => none

/-- Project the counters of the shadow record for `handle` in slot `i` out of
a run result. -/
def shadowProj (r : StepResult) (i handle : Nat) : Option (Nat × Nat) :=
  match r with
  | .ok s => ((s.local_info i).find? (fun l => l.region_handle == handle)).map
      (fun l => (l.call_cnt, l.duration))
  | _ => none

/-- Project `printed_warning` out of a run result. -/
def warningProj (r : StepResult) : Option Bool :=
  match r with
  | .ok s => some s.printed_warning
  | _ => none

/-- Modelled from the spec: `mean_duration_all` recomputed "as the arithmetic
mean of `mean_duration` over all non-inactive regions".  This is the spec-side
formula that claim C5 attributes to the code; it differs from the code's
`update_mean_duration` (which also excludes deletable regions and whose
counter starts at 1). -/
def mean_duration_all_spec (regions : List RegionInfo) : ℚ :=
  let act := regions.filter (fun r => !r.inactive)
  ((act.map (fun r => r.mean_duration)).sum) / (act.length : ℚ)

/-- The region fields that the filter decision never touches. -/
def regionCore (r : RegionInfo) :
    Nat × Nat × Nat × Nat × Option Nat × Option Nat × Nat × Bool × Bool :=
  (r.region_handle, r.call_cnt, r.duration, r.last_enter, r.enter_func,
   r.exit_func, r.depth, r.optimized, r.inactive)


/-! ## General lemmas about the embedding -/

theorem find_updateRegion (handle : Nat) (f : RegionInfo → RegionInfo)
    (hf : ∀ r, (f r).region_handle = r.region_handle) (l : List RegionInfo) :
    (updateRegion handle f l).find? (fun r => r.region_handle == handle) =
      (l.find? (fun r => r.region_handle == handle)).map f := by
  induction l with
  | nil => simp [updateRegion]
  | cons x xs ih =>
    by_cases hx : x.region_handle = handle
    · have hfx : (f x).region_handle = handle := by rw [hf x, hx]
      simp [updateRegion, hx, List.find?, hfx]
    · have hx2 : (x.region_handle == handle) = false := by simp [hx]
      simp [updateRegion, hx2, List.find?, ih]

theorem apply_filter_check_globals (s : SubstrateState) (handle : Nat) :
    (apply_filter_check s handle).thread_ctr = s.thread_ctr ∧
    (apply_filter_check s handle).printed_warning = s.printed_warning ∧
    (apply_filter_check s handle).continue_despite = s.continue_despite ∧
    (apply_filter_check s handle).hooks_known = s.hooks_known ∧
    (apply_filter_check s handle).num_threads = s.num_threads ∧
    (apply_filter_check s handle).local_info = s.local_info ∧
    (apply_filter_check s handle).filtering_absolute = s.filtering_absolute ∧
    (apply_filter_check s handle).threshold = s.threshold := by
  unfold apply_filter_check
  cases hr : findRegion s handle
  · simp
  · simp only
    split
    · split <;> simp
    · split <;> simp

theorem find_apply_filter_check (s : SubstrateState) (handle : Nat) :
    (findRegion (apply_filter_check s handle) handle).map regionCore =
      (findRegion s handle).map regionCore := by
  unfold apply_filter_check
  cases hr : findRegion s handle with
  | none => simp [hr]
  | some region =>
    have hr2 : s.regions.find? (fun r => r.region_handle == handle) = some region := hr
    have hdel := find_updateRegion handle
      (fun r => { r with deletable := true }) (fun r => rfl)
    have hmean := find_updateRegion handle
      (fun x => { x with mean_duration := calc_mean region.duration region.call_cnt })
      (fun r => rfl)
    simp only
    split
    · split
      · simp only [findRegion]
        rw [hdel, hr2]
        simp [regionCore]
      · simp [findRegion, hr2]
    · split
      · simp only [findRegion]
        rw [hdel, hmean, hr2]
        simp [regionCore]
      · simp only [findRegion]
        rw [hmean, hr2]
        simp [regionCore]

theorem umd_foldl (l : List RegionInfo) (a : ℚ) (c : Nat) :
    (l.foldl
      (fun (acc : ℚ × Nat) current =>
        if active_region current then (acc.1 + current.mean_duration, acc.2 + 1)
        else acc)
      (a, c)) =
      (a + ((l.filter active_region).map (fun r => r.mean_duration)).sum,
       c + (l.filter active_region).length) := by
  induction l generalizing a c with
  | nil => simp
  | cons x xs ih =>
    cases hx : active_region x with
    | true => simp [hx, ih, add_assoc, Nat.add_comm]
    | false => simp [hx, ih]

theorem update_mean_duration_eq (regions : List RegionInfo) :
    update_mean_duration regions =
      ((regions.filter active_region).map (fun r => r.mean_duration)).sum /
        ((((regions.filter active_region).length : Nat) : ℚ) + 1) := by
  unfold update_mean_duration
  rw [umd_foldl]
  simp [add_comm]


/-- Project the region table out of a step result. -/
def resultRegions : StepResult → Option (List RegionInfo)
  | .ok s => some s.regions
  | _ => none

theorem on_enter_worker_regions (slot timestamp handle : Nat) (oracle : Option Nat)
    (s : SubstrateState) :
    (on_enter_worker slot timestamp handle oracle s).regions = s.regions := by
  unfold on_enter_worker
  split
  · split
    · rfl
    · split
      · rfl
      · split <;> rfl
  · rfl

theorem on_exit_worker_regions (slot timestamp handle : Nat) (oracle : ExitResolve)
    (s : SubstrateState) :
    (on_exit_worker slot timestamp handle oracle s).regions = s.regions := by
  unfold on_exit_worker
  split
  · split
    · rfl
    · split
      · rfl
      · split <;> rfl
  · rfl

theorem on_enter_main_optimized (ts handle : Nat) (o : Option Nat)
    (s : SubstrateState) (r : RegionInfo)
    (hr : findRegion s handle = some r) (hopt : r.optimized = true) :
    on_enter_main ts handle o s = .ok s := by
  unfold on_enter_main
  rw [hr]
  simp [hopt]

theorem on_exit_main_optimized (ts handle : Nat) (oe : ExitResolve)
    (s : SubstrateState) (r : RegionInfo)
    (hr : findRegion s handle = some r) (hopt : r.optimized = true) :
    on_exit_main ts handle oe s = .ok s := by
  unfold on_exit_main
  rw [hr]
  simp [hopt]

theorem enter_noop_of_optimized (s : SubstrateState) (handle : Nat) (r : RegionInfo)
    (ctx : ThreadCtx) (ts : Nat) (c d : Bool) (o : Option Nat)
    (hr : findRegion s handle = some r) (hopt : r.optimized = true) :
    resultRegions (on_enter_region ctx ts handle c d o s) = some s.regions := by
  unfold on_enter_region
  split
  · rfl
  split
  · rfl
  by_cases hk : s.hooks_known = true
  · simp only [hk, Bool.not_true, Bool.false_eq_true, if_false]
    by_cases hm : ctx.isMain = true
    · rw [if_pos hm, on_enter_main_optimized ts handle o s r hr hopt]
      rfl
    · rw [if_neg hm]
      simp [resultRegions, on_enter_worker_regions]
  · rw [Bool.not_eq_true] at hk
    simp only [hk, Bool.not_false, if_true]
    by_cases hm : ctx.isMain = true
    · rw [if_pos hm,
        on_enter_main_optimized ts handle o { s with hooks_known := d } r hr hopt]
      rfl
    · rw [if_neg hm]
      simp [resultRegions, on_enter_worker_regions]

theorem exit_noop_of_optimized (s : SubstrateState) (handle : Nat) (r : RegionInfo)
    (ctx : ThreadCtx) (ts : Nat) (c : Bool) (oe : ExitResolve)
    (hr : findRegion s handle = some r) (hopt : r.optimized = true) :
    resultRegions (on_exit_region ctx ts handle c oe s) = some s.regions := by
  unfold on_exit_region
  split
  · rfl
  split
  · rfl
  by_cases hm : ctx.isMain = true
  · rw [if_pos hm, on_exit_main_optimized ts handle oe s r hr hopt]
    rfl
  · rw [if_neg hm]
    simp [resultRegions, on_exit_worker_regions]


theorem absolute_check_iff_mean (dur cnt thr : Nat) :
    absolute_check dur cnt thr =
      if cnt = 0 then false
      else decide ((dur : ℚ) / (cnt : ℚ) < (thr : ℚ)) := by
  unfold absolute_check
  by_cases h : cnt = 0
  · simp [h]
  · have hc : (0 : ℚ) < (cnt : ℚ) := by
      exact_mod_cast Nat.pos_of_ne_zero h
    simp only [h, if_false]
    rw [decide_eq_decide, div_lt_iff₀ hc]
    exact_mod_cast Iff.rfl


/-! ## Claim C1 -/

/-- The events of the C1 counterexample up to the first join: a worker whose
enter-direction stack walk misses gets its shadow marked optimized, and the
join promotes the flag to the global record while the statistics are still
empty (so the filter comparison is the C float NaN case and stays false). -/
def c1_events_a : List Event :=
  [ .defineRegion true true 1 "r",
    .createLocation 0,
    .createLocation 1,
    .createLocation 2,
    .enterRegion ⟨false, 0⟩ 0 1 true true none,
    .join ]

/-- Continuation of the C1 counterexample: a second worker accumulates one
cheap call, and the second join merges it, sets `deletable` on the already
optimized region, promotes the worker call-site addresses, and
`delete_regions` then marks the region `inactive`. -/
def c1_events_b : List Event :=
  c1_events_a ++
  [ .enterRegion ⟨false, 1⟩ 0 1 true false (some 1000),
    .exitRegion ⟨false, 1⟩ 10 1 true (.found 2000),
    .join ]

/-- Claim C1 (corrected), counterexample: after `c1_events_a` the region is
`optimized = true`, `deletable = false`, `inactive = false`; the later join in
`c1_events_b` sets both `deletable` and `inactive` on it, so `optimized` is
not absorbing over join events. -/
theorem C1_counterexample :
    regionFlags (run initState c1_events_a) 1 = some (true, false, false) ∧
    regionFlags (run initState c1_events_b) 1 = some (true, true, true) := by
  constructor <;> decide

/-- Claim C1 (corrected), amended: `optimized` is absorbing for enter and exit
events on the region: once a region record is `optimized`, any
`on_enter_region` or `on_exit_region` for its handle returns without touching
the region table at all (in particular it never sets `deletable` or
`inactive`); join events, however, can still set both flags, as the
counterexample shows. -/
theorem C1_optimized_blocks_enter_exit (s : SubstrateState) (handle : Nat)
    (r : RegionInfo) (ctx : ThreadCtx) (ts : Nat) (c d : Bool) (o : Option Nat)
    (oe : ExitResolve)
    (hr : findRegion s handle = some r) (hopt : r.optimized = true) :
    resultRegions (on_enter_region ctx ts handle c d o s) = some s.regions ∧
    resultRegions (on_exit_region ctx ts handle c oe s) = some s.regions :=
  ⟨enter_noop_of_optimized s handle r ctx ts c d o hr hopt,
   exit_noop_of_optimized s handle r ctx ts c oe hr hopt⟩

/-- A region record already marked optimized, for the C1 witness. -/
def c1_region : RegionInfo := { RegionInfo.new 1 "f" with optimized := true }

/-- A state holding `c1_region`, for the C1 witness. -/
def c1_state : SubstrateState := { initState with regions := [c1_region] }

theorem C1_witness :
    resultRegions (on_enter_region ⟨true, 0⟩ 3 1 true false none c1_state) =
      some c1_state.regions ∧
    resultRegions (on_exit_region ⟨true, 0⟩ 3 1 true .notFound c1_state) =
      some c1_state.regions :=
  C1_optimized_blocks_enter_exit c1_state 1 c1_region ⟨true, 0⟩ 3 true false
    none .notFound (by decide) (by decide)

/-! ## Claim C2 -/

/-- Memory fixture for C2: every byte reads `0xe8` (a CALL opcode). -/
def c2_mem : Nat → Nat := fun _ => 0xe8

/-- Region fixture for C2: deletable, at depth zero, with both call-sites
resolved — exactly what `delete_regions` patches. -/
def c2_region : RegionInfo :=
  { RegionInfo.new 5 "g" with
      deletable := true, enter_func := some 4096, exit_func := some 8192 }

/-- Claim C2 (corrected), counterexample: when both permission changes fail
(`addOk = false`, `removeOk = false`), `override_callq` still overwrites the
five bytes at the call-site with the NOP (the first byte was `0xe8` before),
and `delete_regions` still marks the region `inactive` — the patch is not
aborted and cannot be retried. -/
theorem C2_counterexample :
    (override_callq false false c2_mem 4096).mem 4096 = 0x0f ∧
    (override_callq false false c2_mem 4096).mem 4097 = 0x1f ∧
    (override_callq false false c2_mem 4096).mem 4098 = 0x44 ∧
    (override_callq false false c2_mem 4096).mem 4099 = 0x00 ∧
    (override_callq false false c2_mem 4096).mem 4100 = 0x00 ∧
    c2_mem 4096 = 0xe8 ∧
    (delete_region_step c2_region).inactive = true := by
  refine ⟨by decide, by decide, by decide, by decide, by decide, by decide, by decide⟩

/-- Claim C2 (corrected), amended: a failed page-permission change produces a
non-fatal diagnostic, but the patch is not aborted: the five NOP bytes are
written regardless of the mprotect outcomes, and `delete_regions` marks a
qualifying region `inactive` unconditionally, so the patch is never
retried. -/
theorem C2_patch_despite_failure (addOk removeOk : Bool) (mem : Nat → Nat)
    (ptr i : Nat) (hi : i < 5) (r : RegionInfo)
    (hc : r.inactive = false ∧ r.deletable = true ∧ r.depth = 0 ∧
          r.enter_func.isSome = true ∧ r.exit_func.isSome = true) :
    (override_callq addOk removeOk mem ptr).mem (ptr + i) = nop_bytes.getD i 0 ∧
    (addOk = false → 1 ≤ (override_callq addOk removeOk mem ptr).diagnostics) ∧
    (delete_region_step r).inactive = true := by
  obtain ⟨h1, h2, h3, h4, h5⟩ := hc
  refine ⟨?_, ?_, ?_⟩
  · unfold override_callq
    simp only
    rw [if_pos (by omega)]
    congr 1
    omega
  · intro ha
    unfold override_callq
    simp [ha]
  · unfold delete_region_step
    have hcond : (!r.inactive && r.deletable && r.depth == 0 &&
        !(r.enter_func.isNone || r.exit_func.isNone)) = true := by
      cases he : r.enter_func <;> cases hx : r.exit_func <;> simp_all
    rw [if_pos hcond]

theorem C2_witness :
    (override_callq false true c2_mem 100).mem (100 + 2) = nop_bytes.getD 2 0 ∧
    (false = false → 1 ≤ (override_callq false true c2_mem 100).diagnostics) ∧
    (delete_region_step c2_region).inactive = true :=
  C2_patch_despite_failure false true c2_mem 100 2 (by decide) c2_region
    ⟨by decide, by decide, by decide, by decide, by decide⟩

/-! ## Claim C3 -/

/-- Claim C3 (code_bug): the spec says an enter or exit for an undefined
region is silently ignored, and the worker-thread path indeed checks the
lookup result, but the main-thread path dereferences the null HASH_FIND
result (`region->optimized`), a crash.  Evaluating the model at the failing
input — a main-thread enter/exit for compiler-paradigm handle 7 with no
record — yields the fault outcome, not a silent return. -/
theorem C3_undefined_region_faults :
    on_enter_region ⟨true, 0⟩ 0 7 true false none initState = .fault ∧
    on_exit_region ⟨true, 0⟩ 0 7 true .notFound initState = .fault :=
  ⟨rfl, rfl⟩

/-! ## Claim C4 -/

/-- Claim C4 (code_bug): evaluating the `init` METHOD parsing at the failing
input.  With the variable set to "absolute" the code yields
`filtering_absolute = false` (the relative policy): the inner `if` is dead
because the assignment after it runs unconditionally.  Any other set value
also yields `false`; only the unset case keeps the absolute default. -/
theorem C4_method_env_parsing :
    init_filtering_method (some "absolute") true = false ∧
    init_filtering_method (some "relative") true = false ∧
    init_filtering_method none true = true :=
  ⟨rfl, rfl, rfl⟩

/-! ## Claim C6 -/

/-- Claim C6 (corrected), counterexample: defining the same compiler region
handle twice ends the process with `exit(EXIT_FAILURE)` — it does not fail
silently and the process does not continue. -/
theorem C6_counterexample :
    run initState
      [Event.defineRegion true true 1 "a", Event.defineRegion true true 1 "b"] =
      .fatalExit := rfl

/-- Claim C6 (corrected), amended: a define for a compiler region handle that
is already present terminates the process via `exit(EXIT_FAILURE)` (allocating
nothing and changing no record, since the process dies). -/
theorem C6_duplicate_define_fatal (s : SubstrateState) (handle : Nat)
    (name : String)
    (hg : (s.printed_warning && !s.continue_despite) = false)
    (hfound : (findRegion s handle).isSome = true) :
    on_define_region true true handle name s = .fatalExit := by
  unfold on_define_region
  cases hr : findRegion s handle with
  | none => rw [hr] at hfound; simp at hfound
  | some r => simp [hg, hr]

/-- A state already holding region 1, for the C6 witness. -/
def c6_state : SubstrateState := { initState with regions := [RegionInfo.new 1 "a"] }

theorem C6_witness : on_define_region true true 1 "b" c6_state = .fatalExit :=
  C6_duplicate_define_fatal c6_state 1 "b" (by decide) (by decide)

/-! ## Claim C10 -/

/-- Claim C10 (confirmed): once `printed_warning` is set and
CONTINUE_DESPITE_FAILURE is not, every host callback among enter, exit,
team-begin, team-end, join, define, create-location and delete-location
returns immediately with the state unchanged, while `on_write_data` ignores
the gate flag entirely and `finalize` frees the region table regardless. -/
theorem C10_gate_blocks_events (s : SubstrateState)
    (hw : s.printed_warning = true) (hcd : s.continue_despite = false) :
    (∀ ctx ts handle c d o, on_enter_region ctx ts handle c d o s = .ok s) ∧
    (∀ ctx ts handle c oe, on_exit_region ctx ts handle c oe s = .ok s) ∧
    on_team_begin s = s ∧
    on_team_end s = s ∧
    on_join s = s ∧
    (∀ t c handle name, on_define_region t c handle name s = .ok s) ∧
    (∀ locId, on_create_location locId s = s) ∧
    (∀ ctx, on_delete_location ctx s = s) ∧
    (∀ b, on_write_data { s with printed_warning := b } = on_write_data s) ∧
    (∀ b, finalize { s with printed_warning := b } =
      { s with printed_warning := b, regions := [] }) := by
  have hg : (s.printed_warning && !s.continue_despite) = true := by
    simp [hw, hcd]
  refine ⟨?_, ?_, ?_, ?_, ?_, ?_, ?_, ?_, ?_, ?_⟩
  · intro ctx ts handle c d o
    unfold on_enter_region
    rw [if_pos hg]
  · intro ctx ts handle c oe
    unfold on_exit_region
    rw [if_pos hg]
  · unfold on_team_begin
    rw [if_pos hg]
  · unfold on_team_end
    rw [if_pos hg]
  · unfold on_join
    rw [if_pos hg]
  · intro t c handle name
    unfold on_define_region
    rw [if_pos hg]
  · intro locId
    unfold on_create_location
    rw [if_pos hg]
  · intro ctx
    unfold on_delete_location
    rw [if_pos hg]
  · intro b
    rfl
  · intro b
    rfl

/-- A gated state for the C10 witness. -/
def c10_state : SubstrateState := { initState with printed_warning := true }

theorem C10_witness :
    on_join c10_state = c10_state ∧ on_team_begin c10_state = c10_state :=
  ⟨(C10_gate_blocks_events c10_state rfl rfl).2.2.2.2.1,
   (C10_gate_blocks_events c10_state rfl rfl).2.2.1⟩


/-! ## Claim C5 -/

/-- Relative-policy fixture: the exiting region, already resolved, at
recursion depth 1 so the unconditional decrement lands on 0. -/
def c5_ra : RegionInfo :=
  { RegionInfo.new 1 "a" with
      enter_func := some 4, exit_func := some 5, depth := 1 }

/-- Relative-policy fixture: a second active region with mean 12. -/
def c5_rb : RegionInfo := { RegionInfo.new 2 "b" with mean_duration := 12 }

/-- Relative-policy fixture state: relative method, threshold 4, one team
active (so no patching interferes). -/
def c5_state : SubstrateState :=
  { initState with
      filtering_absolute := false, threshold := 4, hooks_known := true,
      thread_ctr := 1, regions := [c5_ra, c5_rb] }

/-- The region table after the C5 exit event: the exiting region has one call
of duration 1 and recomputed mean 1. -/
def c5_post : List RegionInfo :=
  [ { c5_ra with depth := 0, call_cnt := 1, duration := 1, mean_duration := 1 },
    c5_rb ]

/-- Claim C5 (corrected), counterexample: after an exit of duration 1 under
the relative policy with threshold 4, the code's `update_mean_duration` gives
13/3 (it divides by one more than the number of counted regions), while the
spec formula — the arithmetic mean over exactly the non-inactive regions —
gives 13/2.  The claim then demands `deletable` (1 < 13/2 - 4), but the code
leaves the region not deletable (1 < 13/3 - 4 is false). -/
theorem C5_counterexample :
    regionProj (fun r => r.deletable)
      (on_exit_region ⟨true, 0⟩ 1 1 true (.found 9) c5_state) 1 = some false ∧
    update_mean_duration c5_post = 13 / 3 ∧
    mean_duration_all_spec c5_post = 13 / 2 ∧
    ((1 : ℚ) < mean_duration_all_spec c5_post - (c5_state.threshold : ℚ)) := by
  refine ⟨?_, ?_, ?_, ?_⟩
  · norm_num [on_exit_region, on_exit_main, findRegion, List.find?, updateRegion,
      apply_filter_check, calc_mean, update_mean_duration, active_region,
      c5_state, c5_ra, c5_rb, regionProj, U32, U64, add64, sub64,
      RegionInfo.new, initState, resolve_exit, delete_regions, delete_region_step]
  · norm_num [update_mean_duration, active_region, c5_post, c5_ra, c5_rb,
      RegionInfo.new]
  · norm_num [mean_duration_all_spec, c5_post, c5_ra, c5_rb, RegionInfo.new]
  · norm_num [mean_duration_all_spec, c5_post, c5_ra, c5_rb, RegionInfo.new,
      c5_state, initState]

/-- Claim C5 (corrected), amended: when the filter decision runs under the
relative policy for a region `r`, the global mean is recomputed as the sum of
`mean_duration` over the regions that are neither deletable nor inactive
(after storing `r`'s fresh mean) divided by ONE PLUS their count, and the
region ends deletable exactly when it already was or its fresh mean is below
that value minus the threshold. -/
theorem C5_relative_filter_rule (s : SubstrateState) (handle : Nat)
    (r : RegionInfo)
    (habs : s.filtering_absolute = false) (hr : findRegion s handle = some r) :
    (apply_filter_check s handle).mean_duration =
      (((updateRegion handle
          (fun x => { x with mean_duration := calc_mean r.duration r.call_cnt })
          s.regions).filter active_region).map (fun x => x.mean_duration)).sum /
        ((((updateRegion handle
          (fun x => { x with mean_duration := calc_mean r.duration r.call_cnt })
          s.regions).filter active_region).length : ℚ) + 1) ∧
    (findRegion (apply_filter_check s handle) handle).map (fun x => x.deletable) =
      some (r.deletable ||
        decide (calc_mean r.duration r.call_cnt <
          (apply_filter_check s handle).mean_duration - (s.threshold : ℚ))) := by
  have hmean := find_updateRegion handle
    (fun x => { x with mean_duration := calc_mean r.duration r.call_cnt })
    (fun x => rfl) s.regions
  have hdel := find_updateRegion handle
    (fun x => { x with deletable := true }) (fun x => rfl)
  have hr2 : s.regions.find? (fun x => x.region_handle == handle) = some r := hr
  constructor
  · unfold apply_filter_check
    rw [hr]
    simp only [habs, Bool.false_eq_true, if_false, update_mean_duration_eq]
  · unfold apply_filter_check
    rw [hr]
    simp only [habs, Bool.false_eq_true, if_false]
    by_cases hlt : calc_mean r.duration r.call_cnt <
        update_mean_duration (updateRegion handle
          (fun x => { x with mean_duration := calc_mean r.duration r.call_cnt })
          s.regions) - (s.threshold : ℚ)
    · simp only [hlt, if_true, findRegion]
      rw [hdel, hmean, hr2]
      simp [hlt]
    · simp only [hlt, if_false, findRegion]
      rw [hmean, hr2]
      simp [hlt]

theorem C5_witness :
    (apply_filter_check c5_state 1).mean_duration =
      (((updateRegion 1
          (fun x => { x with mean_duration := calc_mean c5_ra.duration c5_ra.call_cnt })
          c5_state.regions).filter active_region).map (fun x => x.mean_duration)).sum /
        ((((updateRegion 1
          (fun x => { x with mean_duration := calc_mean c5_ra.duration c5_ra.call_cnt })
          c5_state.regions).filter active_region).length : ℚ) + 1) ∧
    (findRegion (apply_filter_check c5_state 1) 1).map (fun x => x.deletable) =
      some (c5_ra.deletable ||
        decide (calc_mean c5_ra.duration c5_ra.call_cnt <
          (apply_filter_check c5_state 1).mean_duration - (c5_state.threshold : ℚ))) :=
  C5_relative_filter_rule c5_state 1 c5_ra rfl rfl


/-! ## Claim C7 -/

/-- Project the state out of a successful step. -/
def okState : StepResult → Option SubstrateState
  | .ok s => some s
  | _ => none

/-- Events for the C7 counterexample: no known hook family is ever found on
the stack (`discover = false` throughout), then two balanced enter/exit pairs
on the main thread. -/
def c7_events : List Event :=
  [ .defineRegion true true 1 "r",
    .createLocation 0,
    .enterRegion ⟨true, 0⟩ 0 1 true false none,
    .exitRegion ⟨true, 0⟩ 10 1 true .notFound,
    .enterRegion ⟨true, 0⟩ 20 1 true false none,
    .exitRegion ⟨true, 0⟩ 30 1 true .notFound ]

/-- Claim C7 (corrected), counterexample: with the hook family undiscovered,
after two balanced enter/exit pairs the region's call count and duration are
still zero — statistics bookkeeping did NOT proceed.  The first enter set
`optimized` (the call-site resolution returns null when the hook name is
unknown), and every later event for the region was ignored. -/
theorem C7_counterexample :
    regionProj (fun r => (r.call_cnt, r.duration, r.optimized))
      (run initState c7_events) 1 = some (0, 0, true) := by decide

/-- Claim C7 (corrected), amended: when no hook family is discovered, the
first main-thread enter for a (non-optimized, unresolved) region marks it
`optimized` while leaving its statistics untouched; every subsequent enter or
exit for that region is then a no-op, and `delete_regions` never patches a
region whose enter call-site is null — so patching is indeed disabled, but
bookkeeping stops as well instead of proceeding. -/
theorem C7_unknown_hooks_disable_region (s : SubstrateState) (handle ts : Nat)
    (o : Option Nat) (r : RegionInfo)
    (hg : (s.printed_warning && !s.continue_despite) = false)
    (hk : s.hooks_known = false)
    (hr : findRegion s handle = some r)
    (hopt : r.optimized = false) (henter : r.enter_func = none) :
    regionProj (fun x => (x.optimized, x.enter_func, x.call_cnt, x.duration, x.deletable))
      (on_enter_region ⟨true, 0⟩ ts handle true false o s) handle =
      some (true, none, r.call_cnt, r.duration, r.deletable) ∧
    (∀ s1, okState (on_enter_region ⟨true, 0⟩ ts handle true false o s) = some s1 →
      ∀ ts2 oe, resultRegions (on_exit_region ⟨true, 0⟩ ts2 handle true oe s1) =
        some s1.regions) ∧
    (∀ x : RegionInfo, x.enter_func = none → delete_region_step x = x) := by
  have hr2 : s.regions.find? (fun x => x.region_handle == handle) = some r := hr
  have hstep : ∃ s1 r1, on_enter_region ⟨true, 0⟩ ts handle true false o s = .ok s1 ∧
      findRegion s1 handle = some r1 ∧ r1.optimized = true ∧ r1.enter_func = none ∧
      r1.call_cnt = r.call_cnt ∧ r1.duration = r.duration ∧
      r1.deletable = r.deletable := by
    unfold on_enter_region on_enter_main
    simp only [hg, Bool.false_eq_true, if_false, hk, Bool.not_false, if_true,
      Bool.not_true]
    rw [show findRegion { s with hooks_known := false } handle = some r from hr]
    simp only [hopt, Bool.false_eq_true, if_false, henter, Option.isNone_none,
      if_true, resolve_enter, Bool.or_true]
    by_cases hin : r.inactive = true
    · rw [if_pos hin]
      refine ⟨_, { r with enter_func := none, optimized := true },
        rfl, ?_, rfl, rfl, rfl, rfl, rfl⟩
      unfold findRegion
      simp only
      rw [find_updateRegion handle
        (fun x => { x with enter_func := none, optimized := true })
        (fun x => rfl), hr2]
      rfl
    · rw [if_neg hin]
      refine ⟨_,
        { r with enter_func := none, optimized := true, last_enter := ts, depth := (r.depth + 1) % U32 },
        rfl, ?_, rfl, rfl, rfl, rfl, rfl⟩
      unfold findRegion
      simp only
      rw [find_updateRegion handle
        (fun x => { x with last_enter := ts, depth := (x.depth + 1) % U32 })
        (fun x => rfl),
        find_updateRegion handle
        (fun x => { x with enter_func := none, optimized := true })
        (fun x => rfl), hr2]
      rfl
  obtain ⟨s1, r1, heq, hfind1, hops⟩ := hstep
  refine ⟨?_, ?_, ?_⟩
  · rw [heq]
    unfold regionProj
    simp only
    rw [hfind1]
    simp [hops.1, hops.2.1, hops.2.2.1, hops.2.2.2]
  · intro s2 hok ts2 oe
    rw [heq] at hok
    simp only [okState, Option.some_inj] at hok
    subst hok
    exact exit_noop_of_optimized s1 handle r1 ⟨true, 0⟩ ts2 true oe hfind1 hops.1
  · intro x hx
    unfold delete_region_step
    rw [if_neg]
    simp [hx]

/-- State for the C7 witness: hook family unknown, one fresh region. -/
def c7_state : SubstrateState :=
  { initState with regions := [RegionInfo.new 1 "f"] }

theorem C7_witness :
    regionProj (fun x => (x.optimized, x.enter_func, x.call_cnt, x.duration, x.deletable))
      (on_enter_region ⟨true, 0⟩ 5 1 true false none c7_state) 1 =
      some (true, none, (RegionInfo.new 1 "f").call_cnt,
        (RegionInfo.new 1 "f").duration, (RegionInfo.new 1 "f").deletable) ∧
    (∀ s1, okState (on_enter_region ⟨true, 0⟩ 5 1 true false none c7_state) = some s1 →
      ∀ ts2 oe, resultRegions (on_exit_region ⟨true, 0⟩ ts2 1 true oe s1) =
        some s1.regions) ∧
    (∀ x : RegionInfo, x.enter_func = none → delete_region_step x = x) :=
  C7_unknown_hooks_disable_region c7_state 1 5 none (RegionInfo.new 1 "f")
    rfl rfl rfl rfl rfl

/-! ## Claim C8 (counterexample) -/

/-- Events for the first C8 counterexample: a balanced enter/exit pair whose
enter-direction stack walk fails, so the enter increments `depth` after
setting `optimized`, and the exit returns before the decrement. -/
def c8_events_a : List Event :=
  [ .defineRegion true true 1 "r",
    .createLocation 0,
    .enterRegion ⟨true, 0⟩ 0 1 true true none,
    .exitRegion ⟨true, 0⟩ 5 1 true (.found 9) ]

/-- Events for the second C8 counterexample: an exit with no prior enter
decrements the `uint32_t` depth of 0, wrapping to `2^32 - 1`. -/
def c8_events_b : List Event :=
  [ .defineRegion true true 1 "r",
    .createLocation 0,
    .exitRegion ⟨true, 0⟩ 0 1 true (.found 9) ]

/-- Claim C8 (corrected), counterexample: after the balanced pair of
`c8_events_a` the region's depth is 1, not 0; and the unmatched exit of
`c8_events_b` wraps depth to `2^32 - 1` — an underflow. -/
theorem C8_counterexample :
    regionProj (fun r => r.depth) (run initState c8_events_a) 1 = some 1 ∧
    regionProj (fun r => r.depth) (run initState c8_events_b) 1 =
      some 4294967295 := by
  constructor <;> decide


/-! ## Claim C8 (amended statement machinery) -/

theorem enter_step_ok (s : SubstrateState) (handle ts a : Nat) (d : Bool)
    (r : RegionInfo)
    (hg : (s.printed_warning && !s.continue_despite) = false)
    (hk : s.hooks_known = true)
    (hr : findRegion s handle = some r)
    (hopt : r.optimized = false) (hinact : r.inactive = false) :
    ∃ s1 r1, on_enter_region ⟨true, 0⟩ ts handle true d (some a) s = .ok s1 ∧
      findRegion s1 handle = some r1 ∧
      r1.depth = (r.depth + 1) % U32 ∧
      r1.optimized = false ∧ r1.inactive = false ∧
      s1.printed_warning = s.printed_warning ∧
      s1.continue_despite = s.continue_despite ∧
      s1.hooks_known = true ∧ s1.thread_ctr = s.thread_ctr := by
  have hr2 : s.regions.find? (fun x => x.region_handle == handle) = some r := hr
  unfold on_enter_region on_enter_main
  simp only [hg, Bool.false_eq_true, if_false, hk, Bool.not_true, if_true,
    resolve_enter, eq_self_iff_true]
  rw [hr]
  simp only [hopt, Bool.false_eq_true, if_false]
  rw [if_neg (show ¬(r.inactive = true) by simp [hinact])]
  by_cases hen : r.enter_func.isNone = true
  · rw [if_pos hen]
    refine ⟨_,
      { r with enter_func := some a, optimized := r.optimized || (some a).isNone, last_enter := ts, depth := (r.depth + 1) % U32 },
      rfl, ?_, rfl, by simp [hopt], hinact, rfl, rfl, rfl, rfl⟩
    unfold findRegion
    dsimp only
    rw [find_updateRegion handle
      (fun x => { x with last_enter := ts, depth := (x.depth + 1) % U32 })
      (fun x => rfl),
      find_updateRegion handle
      (fun x => { x with enter_func := some a, optimized := x.optimized || (some a).isNone })
      (fun x => rfl), hr2]
    rfl
  · rw [if_neg hen]
    refine ⟨_,
      { r with last_enter := ts, depth := (r.depth + 1) % U32 },
      rfl, ?_, rfl, hopt, hinact, rfl, rfl, hk, rfl⟩
    unfold findRegion
    dsimp only
    rw [find_updateRegion handle
      (fun x => { x with last_enter := ts, depth := (x.depth + 1) % U32 })
      (fun x => rfl), hr2]
    rfl


theorem find_apply_filter_core (u : SubstrateState) (handle : Nat)
    (q : RegionInfo) (hq : findRegion u handle = some q) :
    (findRegion (apply_filter_check u handle) handle).map regionCore =
      some (regionCore q) := by
  rw [find_apply_filter_check, hq]
  rfl

theorem regionCore_extract (o : Option RegionInfo) (x : RegionInfo)
    (h : o.map regionCore = some (regionCore x)) :
    ∃ r2, o = some r2 ∧ r2.depth = x.depth ∧ r2.optimized = x.optimized ∧
      r2.inactive = x.inactive := by
  cases o with
  | none => simp at h
  | some r2 =>
    simp only [Option.map_some', Option.some_inj, regionCore, Prod.mk.injEq] at h
    exact ⟨r2, rfl, h.2.2.2.2.2.2.1, h.2.2.2.2.2.2.2.1, h.2.2.2.2.2.2.2.2⟩

theorem exit_step_ok (s : SubstrateState) (handle ts a : Nat) (r : RegionInfo)
    (hg : (s.printed_warning && !s.continue_despite) = false)
    (hk : s.hooks_known = true)
    (htc : s.thread_ctr ≠ 0)
    (hr : findRegion s handle = some r)
    (hopt : r.optimized = false) (hinact : r.inactive = false) :
    ∃ s1 r1, on_exit_region ⟨true, 0⟩ ts handle true (.found a) s = .ok s1 ∧
      findRegion s1 handle = some r1 ∧
      r1.depth = (r.depth + U32 - 1) % U32 ∧
      r1.optimized = false ∧ r1.inactive = false ∧
      s1.printed_warning = s.printed_warning ∧
      s1.continue_despite = s.continue_despite ∧
      s1.hooks_known = true ∧ s1.thread_ctr = s.thread_ctr := by
  have hr2 : s.regions.find? (fun x => x.region_handle == handle) = some r := hr
  have htc2 : ¬(s.thread_ctr = 0) := htc
  unfold on_exit_region on_exit_main
  simp only [hg, Bool.false_eq_true, if_false, Bool.not_true, if_true,
    resolve_exit, hk, eq_self_iff_true]
  rw [hr]
  simp only [hopt, Bool.false_eq_true, if_false]
  by_cases hex : r.exit_func.isNone = true
  · rw [if_pos hex]
    by_cases hdel : r.deletable = true
    · rw [if_neg (show ¬((!r.deletable && !r.inactive) = true) by simp [hdel])]
      dsimp only
      rw [if_neg htc2]
      refine ⟨_,
        { r with depth := (r.depth + U32 - 1) % U32, exit_func := some a, optimized := r.optimized || (some a).isNone },
        rfl, ?_, rfl, by simp [hopt], hinact, by simp, rfl, rfl, rfl⟩
      unfold findRegion
      dsimp only
      rw [find_updateRegion handle
        (fun x => { x with exit_func := some a, optimized := x.optimized || (some a).isNone })
        (fun x => rfl),
        find_updateRegion handle
        (fun x => { x with depth := (x.depth + U32 - 1) % U32 })
        (fun x => rfl), hr2]
      rfl
    · have hdel2 : r.deletable = false := by simpa using hdel
      rw [if_pos (show (!r.deletable && !r.inactive) = true by simp [hdel2, hinact])]
      set SB : SubstrateState :=
        { s with
          regions := (updateRegion handle
            (fun x => { x with exit_func := some a, optimized := x.optimized || (some a).isNone })
            (updateRegion handle
              (fun x => { x with depth := (x.depth + U32 - 1) % U32 }) s.regions)),
          hooks_known := true,
          printed_warning := s.printed_warning || false } with hSB
      have hqB : findRegion SB handle = some
          { r with depth := (r.depth + U32 - 1) % U32, exit_func := some a, optimized := r.optimized || (some a).isNone } := by
        rw [hSB]
        unfold findRegion
        dsimp only
        rw [find_updateRegion handle
          (fun x => { x with exit_func := some a, optimized := x.optimized || (some a).isNone })
          (fun x => rfl),
          find_updateRegion handle
          (fun x => { x with depth := (x.depth + U32 - 1) % U32 })
          (fun x => rfl), hr2]
        rfl
      set U : SubstrateState :=
        { SB with regions := (updateRegion handle
            (fun x => { x with call_cnt := (x.call_cnt + 1) % U64,
                               duration := add64 x.duration (sub64 ts x.last_enter) })
            SB.regions) } with hU
      have hqB2 : findRegion U handle = some
          ({ r with depth := (r.depth + U32 - 1) % U32, exit_func := some a, optimized := r.optimized || (some a).isNone, call_cnt := ((r.call_cnt + 1) % U64), duration := add64 r.duration (sub64 ts r.last_enter) }) := by
        rw [hU]
        unfold findRegion
        dsimp only
        rw [find_updateRegion handle
          (fun x => { x with call_cnt := (x.call_cnt + 1) % U64,
                             duration := add64 x.duration (sub64 ts x.last_enter) })
          (fun x => rfl)]
        rw [show SB.regions.find? (fun x => x.region_handle == handle) = some
            { r with depth := (r.depth + U32 - 1) % U32, exit_func := some a, optimized := r.optimized || (some a).isNone }
          from hqB]
        rfl
      obtain ⟨r2, hfin2, hd2, ho2, hi2⟩ :=
        regionCore_extract _ _ (find_apply_filter_core _ handle _ hqB2)
      have hG := apply_filter_check_globals U handle
      have hcnd : ¬((apply_filter_check U handle).thread_ctr = 0) := by
        rw [hG.1]
        exact htc2
      have hpw2 : (apply_filter_check U handle).printed_warning = s.printed_warning := by
        rw [hG.2.1]
        show (s.printed_warning || false) = s.printed_warning
        simp
      have hcd2 : (apply_filter_check U handle).continue_despite = s.continue_despite := by
        rw [hG.2.2.1]
      have hhk2 : (apply_filter_check U handle).hooks_known = true := by
        rw [hG.2.2.2.1]
      have htc3 : (apply_filter_check U handle).thread_ctr = s.thread_ctr := by
        rw [hG.1]
      rw [if_neg hcnd]
      exact ⟨_, r2, rfl, hfin2, by simpa using hd2, by rw [ho2]; simp [hopt],
        by rw [hi2]; exact hinact, hpw2, hcd2, hhk2, htc3⟩
  · rw [if_neg hex]
    by_cases hdel : r.deletable = true
    · rw [if_neg (show ¬((!r.deletable && !r.inactive) = true) by simp [hdel])]
      dsimp only
      rw [if_neg htc2]
      refine ⟨_,
        { r with depth := (r.depth + U32 - 1) % U32 },
        rfl, ?_, rfl, hopt, hinact, rfl, rfl, rfl, rfl⟩
      unfold findRegion
      dsimp only
      rw [find_updateRegion handle
        (fun x => { x with depth := (x.depth + U32 - 1) % U32 })
        (fun x => rfl), hr2]
      rfl
    · have hdel2 : r.deletable = false := by simpa using hdel
      rw [if_pos (show (!r.deletable && !r.inactive) = true by simp [hdel2, hinact])]
      set SB : SubstrateState :=
        { s with
          regions := (updateRegion handle
            (fun x => { x with depth := (x.depth + U32 - 1) % U32 }) s.regions),
          hooks_known := true } with hSB
      have hqB : findRegion SB handle = some
          { r with depth := (r.depth + U32 - 1) % U32 } := by
        rw [hSB]
        unfold findRegion
        dsimp only
        rw [find_updateRegion handle
          (fun x => { x with depth := (x.depth + U32 - 1) % U32 })
          (fun x => rfl), hr2]
        rfl
      set U : SubstrateState :=
        { SB with regions := (updateRegion handle
            (fun x => { x with call_cnt := (x.call_cnt + 1) % U64,
                               duration := add64 x.duration (sub64 ts x.last_enter) })
            SB.regions) } with hU
      have hqB2 : findRegion U handle = some
          ({ r with depth := (r.depth + U32 - 1) % U32, call_cnt := ((r.call_cnt + 1) % U64), duration := add64 r.duration (sub64 ts r.last_enter) }) := by
        rw [hU]
        unfold findRegion
        dsimp only
        rw [find_updateRegion handle
          (fun x => { x with call_cnt := (x.call_cnt + 1) % U64,
                             duration := add64 x.duration (sub64 ts x.last_enter) })
          (fun x => rfl)]
        rw [show SB.regions.find? (fun x => x.region_handle == handle) = some
            { r with depth := (r.depth + U32 - 1) % U32 } from hqB]
        rfl
      obtain ⟨r2, hfin2, hd2, ho2, hi2⟩ :=
        regionCore_extract _ _ (find_apply_filter_core _ handle _ hqB2)
      have hG := apply_filter_check_globals U handle
      have hcnd : ¬((apply_filter_check U handle).thread_ctr = 0) := by
        rw [hG.1]
        exact htc2
      have hpw2 : (apply_filter_check U handle).printed_warning = s.printed_warning := by
        rw [hG.2.1]
      have hcd2 : (apply_filter_check U handle).continue_despite = s.continue_despite := by
        rw [hG.2.2.1]
      have hhk2 : (apply_filter_check U handle).hooks_known = true := by
        rw [hG.2.2.2.1]
      have htc3 : (apply_filter_check U handle).thread_ctr = s.thread_ctr := by
        rw [hG.1]
      rw [if_neg hcnd]
      exact ⟨_, r2, rfl, hfin2, by simpa using hd2, by rw [ho2]; exact hopt,
        by rw [hi2]; exact hinact, hpw2, hcd2, hhk2, htc3⟩


/-- A main-thread event on one region whose stack walks succeed: an enter or
an exit with the resolved call-site address. -/
inductive MainEv where
  | enterEv (ts addr : Nat)
  | exitEv (ts addr : Nat)

/-- Interpret a `MainEv` as a host event for `handle`. -/
def toEvent (handle : Nat) : MainEv → Event
  | .enterEv ts addr => .enterRegion ⟨true, 0⟩ ts handle true false (some addr)
  | .exitEv ts addr => .exitRegion ⟨true, 0⟩ ts handle true (.found addr)

/-- Number of enter events in a `MainEv` list. -/
def countEnters (evs : List MainEv) : Nat :=
  evs.countP (fun e => match e with | .enterEv _ _ => true | _ => false)

/-- Number of exit events in a `MainEv` list. -/
def countExits (evs : List MainEv) : Nat :=
  evs.countP (fun e => match e with | .exitEv _ _ => true | _ => false)

theorem countEnters_cons_enter (ts a : Nat) (evs : List MainEv) :
    countEnters (.enterEv ts a :: evs) = countEnters evs + 1 := by
  simp [countEnters, List.countP_cons]

theorem countEnters_cons_exit (ts a : Nat) (evs : List MainEv) :
    countEnters (.exitEv ts a :: evs) = countEnters evs := by
  simp [countEnters, List.countP_cons]

theorem countExits_cons_enter (ts a : Nat) (evs : List MainEv) :
    countExits (.enterEv ts a :: evs) = countExits evs := by
  simp [countExits, List.countP_cons]

theorem countExits_cons_exit (ts a : Nat) (evs : List MainEv) :
    countExits (.exitEv ts a :: evs) = countExits evs + 1 := by
  simp [countExits, List.countP_cons]

/-- Claim C8 (corrected), amended: on the main thread, for a defined region
that is not optimized or inactive and whose call-site resolutions succeed,
with at least one team active (so no patch can make it inactive mid-sequence)
and the hook family known, `depth` tracks the enter/exit balance exactly:
after any sequence in which no prefix has more exits than the starting depth
plus its enters (and the total cannot overflow the `uint32_t`),
`depth + (number of exits) = depth₀ + (number of enters)`, and the region is still neither
optimized nor inactive.  In particular `depth` returns to its starting value
after balanced sequences.  (The counterexample shows both conjuncts of the
original claim fail without these provisos.) -/
theorem C8_depth_tracks_balance (evs : List MainEv) (handle : Nat) :
    ∀ (s : SubstrateState) (r : RegionInfo),
      (s.printed_warning && !s.continue_despite) = false →
      s.hooks_known = true →
      s.thread_ctr ≠ 0 →
      findRegion s handle = some r →
      r.optimized = false → r.inactive = false →
      r.depth + countEnters evs < U32 →
      (∀ k, k ≤ evs.length →
        countExits (List.take k evs) ≤ r.depth + countEnters (List.take k evs)) →
      ∃ s1 r1, run s (evs.map (toEvent handle)) = .ok s1 ∧
        findRegion s1 handle = some r1 ∧
        r1.depth + countExits evs = r.depth + countEnters evs ∧
        r1.optimized = false ∧ r1.inactive = false := by
  induction evs with
  | nil =>
    intro s r hg hk htc hr hopt hin hb hbal
    exact ⟨s, r, rfl, hr, by simp [countEnters, countExits], hopt, hin⟩
  | cons e evs ih =>
    intro s r hg hk htc hr hopt hin hb hbal
    cases e with
    | enterEv ts a =>
      obtain ⟨s1, r1, heq, hr1, hd1, ho1, hi1, hpw, hcd, hhk, htc1⟩ :=
        enter_step_ok s handle ts a false r hg hk hr hopt hin
      have hb0 : r.depth + countEnters (MainEv.enterEv ts a :: evs) =
          r.depth + countEnters evs + 1 := by
        rw [countEnters_cons_enter]
        omega
      have hdepth1 : r1.depth = r.depth + 1 := by
        rw [hd1, Nat.mod_eq_of_lt]
        omega
      obtain ⟨s2, r2, heq2, hr2, hsum, ho2, hi2⟩ :=
        ih s1 r1 (by rw [hpw, hcd]; exact hg) hhk (by rw [htc1]; exact htc)
          hr1 ho1 hi1
          (by rw [hdepth1]; omega)
          (by
            intro k hkk
            have h2 := hbal (k + 1) (by simp; omega)
            rw [List.take_succ_cons, countExits_cons_enter,
              countEnters_cons_enter] at h2
            rw [hdepth1]
            omega)
      refine ⟨s2, r2, ?_, hr2, ?_, ho2, hi2⟩
      · rw [show run s (List.map (toEvent handle) (MainEv.enterEv ts a :: evs)) =
            run s1 (List.map (toEvent handle) evs) from by
          simp only [List.map_cons, toEvent, run, step]
          rw [heq]]
        exact heq2
      · rw [countExits_cons_enter, countEnters_cons_enter]
        rw [hdepth1] at hsum
        omega
    | exitEv ts a =>
      have hdpos : 1 ≤ r.depth := by
        have h1 := hbal 1 (by simp)
        rw [List.take_succ_cons, List.take_zero, countExits_cons_exit,
          countEnters_cons_exit] at h1
        simp [countEnters, countExits] at h1
        omega
      obtain ⟨s1, r1, heq, hr1, hd1, ho1, hi1, hpw, hcd, hhk, htc1⟩ :=
        exit_step_ok s handle ts a r hg hk htc hr hopt hin
      have hdlt : r.depth < U32 := by
        have := hb
        omega
      have hdepth1 : r1.depth = r.depth - 1 := by
        rw [hd1, show r.depth + U32 - 1 = (r.depth - 1) + U32 from by omega,
          Nat.add_mod_right, Nat.mod_eq_of_lt (by omega)]
      obtain ⟨s2, r2, heq2, hr2, hsum, ho2, hi2⟩ :=
        ih s1 r1 (by rw [hpw, hcd]; exact hg) hhk (by rw [htc1]; exact htc)
          hr1 ho1 hi1
          (by rw [hdepth1, countEnters_cons_exit] at *; omega)
          (by
            intro k hkk
            have h2 := hbal (k + 1) (by simp; omega)
            rw [List.take_succ_cons, countExits_cons_exit,
              countEnters_cons_exit] at h2
            rw [hdepth1]
            omega)
      refine ⟨s2, r2, ?_, hr2, ?_, ho2, hi2⟩
      · rw [show run s (List.map (toEvent handle) (MainEv.exitEv ts a :: evs)) =
            run s1 (List.map (toEvent handle) evs) from by
          simp only [List.map_cons, toEvent, run, step]
          rw [heq]]
        exact heq2
      · rw [countExits_cons_exit, countEnters_cons_exit]
        rw [hdepth1] at hsum
        omega

/-- Fixture state for the C8 witness: one region, hooks known, one active
team. -/
def c8_state : SubstrateState :=
  { initState with hooks_known := true, thread_ctr := 1, regions := [RegionInfo.new 1 "f"] }

theorem C8_witness :
    ∃ s1 r1,
      run c8_state
        ([MainEv.enterEv 0 100, MainEv.exitEv 1 100].map (toEvent 1)) =
        .ok s1 ∧
      findRegion s1 1 = some r1 ∧
      r1.depth + countExits [MainEv.enterEv 0 100, MainEv.exitEv 1 100] =
        (RegionInfo.new 1 "f").depth +
          countEnters [MainEv.enterEv 0 100, MainEv.exitEv 1 100] ∧
      r1.optimized = false ∧ r1.inactive = false :=
  C8_depth_tracks_balance [MainEv.enterEv 0 100, MainEv.exitEv 1 100] 1
    c8_state (RegionInfo.new 1 "f") rfl rfl (by decide) (by decide) rfl rfl
    (by decide) (by decide)


/-! ## Claim C9 (machinery) -/

theorem updateLocal_handles (h : Nat) (f : LocalRegionInfo → LocalRegionInfo)
    (hf : ∀ l, (f l).region_handle = l.region_handle)
    (ls : List LocalRegionInfo) :
    (updateLocal h f ls).map (fun l => l.region_handle) =
      ls.map (fun l => l.region_handle) := by
  induction ls with
  | nil => rfl
  | cons x xs ih =>
    by_cases hx : (x.region_handle == h) = true
    · simp [updateLocal, hx, hf]
    · simp only [updateLocal, hx, Bool.false_eq_true, if_false, List.map_cons, ih]

theorem mem_updateLocal (h : Nat) (f : LocalRegionInfo → LocalRegionInfo)
    (ls : List LocalRegionInfo) (l2 : LocalRegionInfo)
    (hmem : l2 ∈ updateLocal h f ls) :
    l2 ∈ ls ∨ ∃ l ∈ ls, l2 = f l := by
  induction ls with
  | nil => simp [updateLocal] at hmem
  | cons x xs ih =>
    by_cases hx : (x.region_handle == h) = true
    · rw [updateLocal, if_pos hx] at hmem
      rcases List.mem_cons.mp hmem with h1 | h1
      · exact Or.inr ⟨x, List.mem_cons_self x xs, h1⟩
      · exact Or.inl (List.mem_cons_of_mem x h1)
    · rw [updateLocal, if_neg hx] at hmem
      rcases List.mem_cons.mp hmem with h1 | h1
      · exact Or.inl (h1 ▸ List.mem_cons_self x xs)
      · rcases ih h1 with h2 | ⟨l, hl, he⟩
        · exact Or.inl (List.mem_cons_of_mem x h2)
        · exact Or.inr ⟨l, List.mem_cons_of_mem x hl, he⟩

theorem updateLocal_zero_of_nodup (h : Nat) (ls : List LocalRegionInfo)
    (hnd : (ls.map (fun l => l.region_handle)).Nodup) :
    ∀ l2 ∈ updateLocal h (fun l => { l with call_cnt := 0, duration := 0 }) ls,
      l2.region_handle = h → l2.call_cnt = 0 ∧ l2.duration = 0 := by
  induction ls with
  | nil => simp [updateLocal]
  | cons x xs ih =>
    intro l2 hmem hl2
    by_cases hx : (x.region_handle == h) = true
    · rw [updateLocal, if_pos hx] at hmem
      rcases List.mem_cons.mp hmem with h1 | h1
      · rw [h1]
        exact ⟨rfl, rfl⟩
      · exfalso
        have hxh : x.region_handle = h := by simpa using hx
        have : l2.region_handle ∈ xs.map (fun l => l.region_handle) :=
          List.mem_map_of_mem _ h1
        rw [List.map_cons, List.nodup_cons] at hnd
        exact hnd.1 (by rw [hxh, ← hl2]; exact this)
    · rw [updateLocal, if_neg hx] at hmem
      rcases List.mem_cons.mp hmem with h1 | h1
      · exfalso
        apply hx
        rw [h1] at hl2
        simp [hl2]
      · exact ih (by rw [List.map_cons, List.nodup_cons] at hnd; exact hnd.2)
          l2 h1 hl2

theorem mem_updateLocal_zero (h : Nat) (ls : List LocalRegionInfo)
    (l2 : LocalRegionInfo)
    (hmem : l2 ∈ updateLocal h (fun l => { l with call_cnt := 0, duration := 0 }) ls) :
    l2 ∈ ls ∨ l2.call_cnt = 0 ∧ l2.duration = 0 := by
  rcases mem_updateLocal h _ ls l2 hmem with h1 | ⟨l, _, he⟩
  · exact Or.inl h1
  · exact Or.inr (by rw [he]; exact ⟨rfl, rfl⟩)

theorem join_merge_slot_num_threads (s : SubstrateState) (h i : Nat) :
    (join_merge_slot s h i).num_threads = s.num_threads := by
  unfold join_merge_slot
  cases (s.local_info i).find? (fun l => l.region_handle == h) <;> rfl

theorem join_merge_slot_handles (s : SubstrateState) (h i j : Nat) :
    ((join_merge_slot s h i).local_info j).map (fun l => l.region_handle) =
      (s.local_info j).map (fun l => l.region_handle) := by
  unfold join_merge_slot
  cases (s.local_info i).find? (fun l => l.region_handle == h) with
  | none => rfl
  | some l =>
    by_cases hij : j = i
    · subst hij
      show (updateSlot s.local_info j _ j).map _ = _
      unfold updateSlot
      rw [if_pos rfl]
      exact updateLocal_handles h
        (fun l => { l with call_cnt := 0, duration := 0 }) (fun l => rfl)
        (s.local_info j)
    · show (updateSlot s.local_info i _ j).map _ = _
      unfold updateSlot
      rw [if_neg hij]

theorem join_merge_slot_zeroes (s : SubstrateState) (h i : Nat)
    (hnd : ((s.local_info i).map (fun l => l.region_handle)).Nodup) :
    ∀ l2 ∈ (join_merge_slot s h i).local_info i,
      l2.region_handle = h → l2.call_cnt = 0 ∧ l2.duration = 0 := by
  intro l2 hmem hl2
  unfold join_merge_slot at hmem
  cases hf : (s.local_info i).find? (fun l => l.region_handle == h) with
  | none =>
    rw [hf] at hmem
    exfalso
    have := List.find?_eq_none.mp hf l2 hmem
    simp [hl2] at this
  | some l =>
    rw [hf] at hmem
    have hmem2 : l2 ∈ updateLocal h
        (fun l => { l with call_cnt := 0, duration := 0 }) (s.local_info i) := by
      revert hmem
      show l2 ∈ updateSlot s.local_info i _ i → _
      unfold updateSlot
      rw [if_pos rfl]
      exact id
    exact updateLocal_zero_of_nodup h (s.local_info i) hnd l2 hmem2 hl2

theorem join_merge_slot_preserves_zero (s : SubstrateState) (h2 i j h : Nat)
    (hz : ∀ l ∈ s.local_info j, l.region_handle = h →
      l.call_cnt = 0 ∧ l.duration = 0) :
    ∀ l2 ∈ (join_merge_slot s h2 i).local_info j,
      l2.region_handle = h → l2.call_cnt = 0 ∧ l2.duration = 0 := by
  intro l2 hmem hl2
  unfold join_merge_slot at hmem
  cases hf : (s.local_info i).find? (fun l => l.region_handle == h2) with
  | none =>
    rw [hf] at hmem
    exact hz l2 hmem hl2
  | some l =>
    rw [hf] at hmem
    by_cases hij : j = i
    · subst hij
      have hmem2 : l2 ∈ updateLocal h2
          (fun l => { l with call_cnt := 0, duration := 0 }) (s.local_info j) := by
        revert hmem
        show l2 ∈ updateSlot s.local_info j _ j → _
        unfold updateSlot
        rw [if_pos rfl]
        exact id
      rcases mem_updateLocal_zero h2 _ l2 hmem2 with h1 | h1
      · exact hz l2 h1 hl2
      · exact h1
    · have hmem2 : l2 ∈ s.local_info j := by
        revert hmem
        show l2 ∈ updateSlot s.local_info i _ j → _
        unfold updateSlot
        rw [if_neg hij]
        exact id
      exact hz l2 hmem2 hl2


theorem merge_fold_num_threads (h b : Nat) (s : SubstrateState) :
    ((List.range b).foldl (fun s i => join_merge_slot s h i) s).num_threads =
      s.num_threads := by
  induction b generalizing s with
  | zero => rfl
  | succ n ih =>
    rw [List.range_succ, List.foldl_append]
    rw [show (List.foldl (fun s i => join_merge_slot s h i) ((List.range n).foldl (fun s i => join_merge_slot s h i) s) [n]) = join_merge_slot ((List.range n).foldl (fun s i => join_merge_slot s h i) s) h n from rfl]
    rw [join_merge_slot_num_threads, ih]

theorem merge_fold_handles (h b : Nat) (s : SubstrateState) (j : Nat) :
    ((((List.range b).foldl (fun s i => join_merge_slot s h i) s)).local_info j).map
        (fun l => l.region_handle) =
      (s.local_info j).map (fun l => l.region_handle) := by
  induction b generalizing s with
  | zero => rfl
  | succ n ih =>
    rw [List.range_succ, List.foldl_append]
    rw [show (List.foldl (fun s i => join_merge_slot s h i) ((List.range n).foldl (fun s i => join_merge_slot s h i) s) [n]) = join_merge_slot ((List.range n).foldl (fun s i => join_merge_slot s h i) s) h n from rfl]
    rw [join_merge_slot_handles, ih]

theorem merge_fold_preserves_zero (h2 b h j : Nat) (s : SubstrateState)
    (hz : ∀ l ∈ s.local_info j, l.region_handle = h →
      l.call_cnt = 0 ∧ l.duration = 0) :
    ∀ l ∈ (((List.range b).foldl (fun s i => join_merge_slot s h2 i) s)).local_info j,
      l.region_handle = h → l.call_cnt = 0 ∧ l.duration = 0 := by
  induction b generalizing s with
  | zero => exact hz
  | succ n ih =>
    rw [List.range_succ, List.foldl_append]
    rw [show (List.foldl (fun s i => join_merge_slot s h2 i) ((List.range n).foldl (fun s i => join_merge_slot s h2 i) s) [n]) = join_merge_slot ((List.range n).foldl (fun s i => join_merge_slot s h2 i) s) h2 n from rfl]
    exact join_merge_slot_preserves_zero _ h2 n j h (ih s hz)

theorem merge_fold_zeroes (h b : Nat) (s : SubstrateState)
    (hnd : ∀ i, i < b →
      ((s.local_info i).map (fun l => l.region_handle)).Nodup) :
    ∀ i, i < b →
      ∀ l ∈ (((List.range b).foldl (fun s i => join_merge_slot s h i) s)).local_info i,
        l.region_handle = h → l.call_cnt = 0 ∧ l.duration = 0 := by
  induction b generalizing s with
  | zero => intro i hi; omega
  | succ n ih =>
    intro i hi
    rw [List.range_succ, List.foldl_append]
    rw [show (List.foldl (fun s i => join_merge_slot s h i) ((List.range n).foldl (fun s i => join_merge_slot s h i) s) [n]) = join_merge_slot ((List.range n).foldl (fun s i => join_merge_slot s h i) s) h n from rfl]
    by_cases hin : i < n
    · exact join_merge_slot_preserves_zero _ h n i h
        (ih s (fun k hk => hnd k (by omega)) i hin)
    · have hieq : i = n := by omega
      subst hieq
      apply join_merge_slot_zeroes
      rw [merge_fold_handles]
      exact hnd i hi

theorem join_process_region_num_threads (s : SubstrateState) (h : Nat) :
    (join_process_region s h).num_threads = s.num_threads := by
  unfold join_process_region
  rw [(apply_filter_check_globals _ _).2.2.2.2.1, merge_fold_num_threads]

theorem join_process_region_local_info (s : SubstrateState) (h j : Nat) :
    ((join_process_region s h).local_info j).map (fun l => l.region_handle) =
      (s.local_info j).map (fun l => l.region_handle) := by
  unfold join_process_region
  rw [(apply_filter_check_globals _ _).2.2.2.2.2.1, merge_fold_handles]

theorem join_process_region_zeroes (s : SubstrateState) (h : Nat)
    (hnd : ∀ i, i < min s.num_threads MAX_THREAD_CNT →
      ((s.local_info i).map (fun l => l.region_handle)).Nodup) :
    ∀ i, i < min s.num_threads MAX_THREAD_CNT →
      ∀ l ∈ (join_process_region s h).local_info i,
        l.region_handle = h → l.call_cnt = 0 ∧ l.duration = 0 := by
  intro i hi l hmem
  unfold join_process_region at hmem
  rw [(apply_filter_check_globals _ _).2.2.2.2.2.1] at hmem
  exact merge_fold_zeroes h (min s.num_threads MAX_THREAD_CNT) s hnd i hi l hmem

theorem join_process_region_preserves_zero (s : SubstrateState) (h2 h j : Nat)
    (hz : ∀ l ∈ s.local_info j, l.region_handle = h →
      l.call_cnt = 0 ∧ l.duration = 0) :
    ∀ l ∈ (join_process_region s h2).local_info j,
      l.region_handle = h → l.call_cnt = 0 ∧ l.duration = 0 := by
  intro l hmem
  unfold join_process_region at hmem
  rw [(apply_filter_check_globals _ _).2.2.2.2.2.1] at hmem
  exact merge_fold_preserves_zero h2 _ h j s hz l hmem

theorem handles_fold_num_threads (hs : List Nat) :
    ∀ s : SubstrateState,
      (hs.foldl join_process_region s).num_threads = s.num_threads := by
  induction hs with
  | nil => intro s; rfl
  | cons h hs ih =>
    intro s
    rw [List.foldl_cons, ih, join_process_region_num_threads]

theorem handles_fold_local_info (hs : List Nat) :
    ∀ (s : SubstrateState) (j : Nat),
      ((hs.foldl join_process_region s).local_info j).map (fun l => l.region_handle) =
        (s.local_info j).map (fun l => l.region_handle) := by
  induction hs with
  | nil => intro s j; rfl
  | cons h hs ih =>
    intro s j
    rw [List.foldl_cons, ih, join_process_region_local_info]

theorem handles_fold_preserves_zero (hs : List Nat) :
    ∀ (s : SubstrateState) (h j : Nat),
      (∀ l ∈ s.local_info j, l.region_handle = h →
        l.call_cnt = 0 ∧ l.duration = 0) →
      ∀ l ∈ (hs.foldl join_process_region s).local_info j,
        l.region_handle = h → l.call_cnt = 0 ∧ l.duration = 0 := by
  induction hs with
  | nil => intro s h j hz; exact hz
  | cons h0 hs ih =>
    intro s h j hz
    rw [List.foldl_cons]
    exact ih _ h j (join_process_region_preserves_zero s h0 h j hz)

theorem handles_fold_zeroes (hs : List Nat) :
    ∀ (s : SubstrateState),
      (∀ i, i < min s.num_threads MAX_THREAD_CNT →
        ((s.local_info i).map (fun l => l.region_handle)).Nodup) →
      ∀ h ∈ hs, ∀ i, i < min s.num_threads MAX_THREAD_CNT →
        ∀ l ∈ (hs.foldl join_process_region s).local_info i,
          l.region_handle = h → l.call_cnt = 0 ∧ l.duration = 0 := by
  induction hs with
  | nil => intro s _ h hh; simp at hh
  | cons h0 hs ih =>
    intro s hnd h hh i hi l hmem
    rw [List.foldl_cons] at hmem
    rcases List.mem_cons.mp hh with he | he
    · subst he
      exact handles_fold_preserves_zero hs (join_process_region s h) h i
        (join_process_region_zeroes s h hnd i hi) l hmem
    · have hnd2 : ∀ k, k < min (join_process_region s h0).num_threads MAX_THREAD_CNT →
          (((join_process_region s h0).local_info k).map (fun l => l.region_handle)).Nodup := by
        intro k hk
        rw [join_process_region_local_info]
        rw [join_process_region_num_threads] at hk
        exact hnd k hk
      have hi2 : i < min (join_process_region s h0).num_threads MAX_THREAD_CNT := by
        rw [join_process_region_num_threads]
        exact hi
      exact ih (join_process_region s h0) hnd2 h he i hi2 l hmem


/-- Events for the C9 counterexample: a worker accumulates one call and its
exit-direction stack walk hits an unrecognized byte pattern, which prints the
one-shot warning; the following join is then gated and returns without
touching the shadows. -/
def c9_events : List Event :=
  [ .defineRegion true true 1 "r",
    .createLocation 0,
    .createLocation 1,
    .enterRegion ⟨false, 0⟩ 0 1 true true (some 100),
    .exitRegion ⟨false, 0⟩ 10 1 true .badPattern,
    .join ]

/-- Claim C9 (corrected), counterexample: after `c9_events` the warning flag
is set (and CONTINUE_DESPITE_FAILURE is off), so `on_join` returned
immediately and the worker's shadow still holds `call_cnt = 1, duration = 10`
— not every shadow's counters are zero after an `on_join`. -/
theorem C9_counterexample :
    shadowProj (run initState c9_events) 0 1 = some (1, 10) ∧
    warningProj (run initState c9_events) = some true := by
  constructor <;> decide

/-- Claim C9 (corrected), amended: when `on_join` is not gated by the
one-shot warning, it zeroes the counters of every shadow that it merges: for
every slot below `min num_threads MAX_THREAD_CNT` (slots at or above the
border are never visited), provided each such slot's shadow table has
pairwise distinct region handles and only handles present in the global
region table (both hold for tables built by `on_create_location`), every
shadow in the slot ends with `call_cnt = 0` and `duration = 0`. -/
theorem C9_join_zeroes_merged_shadows (s : SubstrateState)
    (hg : (s.printed_warning && !s.continue_despite) = false)
    (hcover : ∀ i, i < min s.num_threads MAX_THREAD_CNT →
      ∀ l ∈ s.local_info i,
        l.region_handle ∈ s.regions.map (fun r => r.region_handle))
    (hnd : ∀ i, i < min s.num_threads MAX_THREAD_CNT →
      ((s.local_info i).map (fun l => l.region_handle)).Nodup) :
    ∀ i, i < min s.num_threads MAX_THREAD_CNT →
      ∀ l ∈ (on_join s).local_info i, l.call_cnt = 0 ∧ l.duration = 0 := by
  intro i hi l hmem
  unfold on_join at hmem
  rw [if_neg (show ¬((s.printed_warning && !s.continue_despite) = true) by
    simp [hg])] at hmem
  have hmem2 : l ∈ ((s.regions.map (fun r => r.region_handle)).foldl
      join_process_region s).local_info i := by
    by_cases hc : ((s.regions.map (fun r => r.region_handle)).foldl
        join_process_region s).thread_ctr = 0
    · rw [if_pos hc] at hmem
      exact hmem
    · rw [if_neg hc] at hmem
      exact hmem
  have hhandle : l.region_handle ∈ s.regions.map (fun r => r.region_handle) := by
    have hmaps := handles_fold_local_info
      (s.regions.map (fun r => r.region_handle)) s i
    have : l.region_handle ∈
        (((s.regions.map (fun r => r.region_handle)).foldl
          join_process_region s).local_info i).map (fun l => l.region_handle) :=
      List.mem_map_of_mem _ hmem2
    rw [hmaps] at this
    rcases List.mem_map.mp this with ⟨l0, hl0, he⟩
    rw [← he]
    exact hcover i hi l0 hl0
  exact handles_fold_zeroes (s.regions.map (fun r => r.region_handle)) s hnd
    l.region_handle hhandle i hi l hmem2 rfl

/-- Fixture state for the C9 witness: one region, one worker slot holding a
shadow with nonzero counters, warning not printed. -/
def c9_state : SubstrateState :=
  { initState with
      regions := [RegionInfo.new 1 "f"],
      num_threads := 1,
      thread_ctr := 1,
      local_info := updateSlot (fun _ => []) 0
        (fun _ => [{ LocalRegionInfo.new 1 with call_cnt := 7, duration := 9 }]) }

theorem C9_witness :
    (LocalRegionInfo.new 1).call_cnt = 0 ∧ (LocalRegionInfo.new 1).duration = 0 :=
  C9_join_zeroes_merged_shadows c9_state rfl
    (by decide) (by decide) 0 (by decide) (LocalRegionInfo.new 1) (by decide)

end DynamicFiltering
